import Mathlib

/-!
Shallow embedding of the Image-Text-Composer editor core: the Document Store
(`editorSlice`), the History Store (`historySlice.ts`), the PNG export helpers
(`utils/export.ts`), and the page-level layer operations (`applySmartSpacing`,
`nudgeSelectedLayers` in `pages/index.tsx`).

Geometry and dimensions are JavaScript numbers in the source; they are modeled
as rationals (`ℚ`), timestamps (`Date.now()`) as naturals passed explicitly.
All functions are total by construction, mirroring the source operations,
none of which throw on any input.
-/

namespace ImageTextComposer

/-- `TextShadow` from `types/canvas.ts`. -/
structure TextShadow where
  color : String
  blur : ℚ
  offsetX : ℚ
  offsetY : ℚ
deriving DecidableEq, Inhabited

/-- `TextLayerProperties` from `types/canvas.ts`.  The TypeScript optional
fields (`lineHeight?`, `charSpacing?`, `shadow?`, `locked?`) are modeled as
`Option`s; `shadow`'s `null` and "absent" are conflated into `none`. -/
structure TextLayerProperties where
  id : String
  text : String
  fontFamily : String
  fontSize : ℚ
  fontWeight : String
  color : String
  opacity : ℚ
  textAlign : String
  top : ℚ
  left : ℚ
  width : ℚ
  height : ℚ
  angle : ℚ
  scaleX : ℚ
  scaleY : ℚ
  lineHeight : Option ℚ
  charSpacing : Option ℚ
  shadow : Option TextShadow
  locked : Option Bool
deriving DecidableEq, Inhabited

/-- `ImageDimensions` from `types/canvas.ts`. -/
structure ImageDimensions where
  width : ℚ
  height : ℚ
  aspectRatio : ℚ
deriving DecidableEq, Inhabited

/-- `BackgroundImage` from `types/canvas.ts`.  The browser `File` handle is
not inspected by any modeled operation; it is represented by an optional
opaque-name string. -/
structure BackgroundImage where
  url : String
  file : Option String
  dimensions : ImageDimensions
deriving DecidableEq, Inhabited

/-- The `canvasDimensions` record of `CanvasState`. -/
structure CanvasDimensions where
  width : ℚ
  height : ℚ
deriving DecidableEq, Inhabited

/-- `CanvasState` from `types/canvas.ts`: the data fields of the Document
Store (`editorSlice`).  Note that `selectedLayerIds` is one of its fields. -/
structure CanvasState where
  backgroundImage : Option BackgroundImage
  textLayers : List TextLayerProperties
  selectedLayerIds : List String
  canvasDimensions : CanvasDimensions
deriving DecidableEq, Inhabited

/-- `HistoryAction` from `types/history.ts`: timestamp, human-readable
description, and the embedded full `CanvasState` snapshot. -/
structure HistoryAction where
  timestamp : Nat
  description : String
  state : CanvasState
deriving DecidableEq, Inhabited

/-- `HistoryState` from `historySlice.ts`. -/
structure HistoryState where
  past : List HistoryAction
  present : Option HistoryAction
  future : List HistoryAction
  maxHistorySize : Nat
deriving DecidableEq, Inhabited

/-- `MAX_HISTORY_SIZE` in `historySlice.ts`. -/
def MAX_HISTORY_SIZE : Nat := 20

/-- `initialState` of `historySlice.ts`. -/
def historyInitialState : HistoryState :=
  { past := [], present := none, future := [], maxHistorySize := MAX_HISTORY_SIZE }

/-- `initialState` of `editorSlice.ts`. -/
def editorInitialState : CanvasState :=
  { backgroundImage := none
    textLayers := []
    selectedLayerIds := []
    canvasDimensions := { width := 800, height := 600 } }

/-- The combined in-memory state: the Document Store (`useEditorStore`) and
the History Store (`useHistoryStore`).  `undo`/`redo` in `historySlice.ts`
mutate both (the editor via `importState`). -/
structure AppState where
  editor : CanvasState
  history : HistoryState
deriving DecidableEq, Inhabited

/-- The initial combined state: both stores at their `initialState`. -/
def initialApp : AppState :=
  { editor := editorInitialState, history := historyInitialState }

/-- JavaScript `Array.prototype.slice(start)` for an integer `start` (used in
`pushHistory` as `.slice(-maxHistorySize + 1)`): a negative `start` counts
from the end, clamped at 0. -/
def jsSliceFrom (start : Int) (l : List α) : List α :=
  if start < 0 then l.drop ((l.length + start).toNat) else l.drop start.toNat

/-- `JSON.parse(JSON.stringify(state))` in `pushHistory`: on the pure-data
fields modeled here the JSON round trip is the identity. -/
def jsonDeepClone (s : CanvasState) : CanvasState := s

/-- `pushHistory` from `historySlice.ts`: deep-clone the snapshot into a new
action, move the current present (if any) to the end of `past` keeping only
the last `maxHistorySize - 1` entries, clear `future`. -/
def pushHistory (description : String) (timestamp : Nat) (state : CanvasState)
    (h : HistoryState) : HistoryState :=
  let newAction : HistoryAction :=
    { timestamp := timestamp, description := description, state := jsonDeepClone state }
  let newPast :=
    match h.present with
    | some p => jsSliceFrom (-(h.maxHistorySize : Int) + 1) (h.past ++ [p])
    | none => h.past
  { past := newPast, present := some newAction, future := [], maxHistorySize := h.maxHistorySize }

/-- `importState` from `editorSlice.ts`: `set(state)` replaces all four data
fields of the Document Store with the snapshot's. -/
def importState (state : CanvasState) (_current : CanvasState) : CanvasState := state

/-- `undo` from `historySlice.ts`: no-op if `past` is empty or `present` is
null; otherwise pop the last past entry, apply its snapshot to the Document
Store via `importState`, make it `present`, and prepend the old present to
`future`. -/
def undoApp (app : AppState) : AppState :=
  let h := app.history
  match h.past.getLast?, h.present with
  | some previous, some p =>
      { editor := importState previous.state app.editor
        history :=
          { past := h.past.dropLast
            present := some previous
            future := p :: h.future
            maxHistorySize := h.maxHistorySize } }
  | _, _ => app

/-- `redo` from `historySlice.ts`: no-op if `future` is empty; otherwise pop
the first future entry, apply its snapshot via `importState`, make it
`present`, and append the old present (if any) to `past`. -/
def redoApp (app : AppState) : AppState :=
  let h := app.history
  match h.future with
  | [] => app
  | next :: newFuture =>
      { editor := importState next.state app.editor
        history :=
          { past :=
              match h.present with
              | some p => h.past ++ [p]
              | none => h.past
            present := some next
            future := newFuture
            maxHistorySize := h.maxHistorySize } }

/-- `canUndo` from `historySlice.ts`: `past.length > 0`. -/
def canUndo (h : HistoryState) : Bool := decide (0 < h.past.length)

/-- `canRedo` from `historySlice.ts`: `future.length > 0`. -/
def canRedo (h : HistoryState) : Bool := decide (0 < h.future.length)

/-- `clearHistory` from `historySlice.ts`: reset to `initialState`. -/
def clearHistory : HistoryState := historyInitialState

/-- `Partial<TextLayerProperties>` as used by `updateTextLayer`: every field
optional; `none` means "key absent, leave unchanged".  For the fields that
are themselves optional in `TextLayerProperties`, a present key carries the
new optional value (e.g. `shadow: null` is `some none`). -/
structure LayerPatch where
  id : Option String := none
  text : Option String := none
  fontFamily : Option String := none
  fontSize : Option ℚ := none
  fontWeight : Option String := none
  color : Option String := none
  opacity : Option ℚ := none
  textAlign : Option String := none
  top : Option ℚ := none
  left : Option ℚ := none
  width : Option ℚ := none
  height : Option ℚ := none
  angle : Option ℚ := none
  scaleX : Option ℚ := none
  scaleY : Option ℚ := none
  lineHeight : Option (Option ℚ) := none
  charSpacing : Option (Option ℚ) := none
  shadow : Option (Option TextShadow) := none
  locked : Option (Option Bool) := none
deriving DecidableEq, Inhabited

/-- The spread `{ ...layer, ...properties }` in `updateTextLayer`. -/
def applyLayerPatch (p : LayerPatch) (l : TextLayerProperties) : TextLayerProperties :=
  { id := p.id.getD l.id
    text := p.text.getD l.text
    fontFamily := p.fontFamily.getD l.fontFamily
    fontSize := p.fontSize.getD l.fontSize
    fontWeight := p.fontWeight.getD l.fontWeight
    color := p.color.getD l.color
    opacity := p.opacity.getD l.opacity
    textAlign := p.textAlign.getD l.textAlign
    top := p.top.getD l.top
    left := p.left.getD l.left
    width := p.width.getD l.width
    height := p.height.getD l.height
    angle := p.angle.getD l.angle
    scaleX := p.scaleX.getD l.scaleX
    scaleY := p.scaleY.getD l.scaleY
    lineHeight := p.lineHeight.getD l.lineHeight
    charSpacing := p.charSpacing.getD l.charSpacing
    shadow := p.shadow.getD l.shadow
    locked := p.locked.getD l.locked }

/-- `updateTextLayer` from `editorSlice.ts`: map over `textLayers`, merging
the partial properties into the layer whose id matches. -/
def updateTextLayer (id : String) (properties : LayerPatch) (s : CanvasState) : CanvasState :=
  { s with
    textLayers := s.textLayers.map (fun layer =>
      if layer.id = id then applyLayerPatch properties layer else layer) }

/-- The `switch` on `direction` in `nudgeSelectedLayers` (pages/index.tsx),
horizontal part: `newLeft`. -/
def nudgeNewLeft (direction : String) (distance : ℚ) (layer : TextLayerProperties) : ℚ :=
  if direction = "ArrowLeft" then layer.left - distance
  else if direction = "ArrowRight" then layer.left + distance
  else layer.left

/-- The `switch` on `direction` in `nudgeSelectedLayers`, vertical part:
`newTop`. -/
def nudgeNewTop (direction : String) (distance : ℚ) (layer : TextLayerProperties) : ℚ :=
  if direction = "ArrowUp" then layer.top - distance
  else if direction = "ArrowDown" then layer.top + distance
  else layer.top

/-- The "safeguard" condition at pages/index.tsx:110:
`deltaX > distance * 2 || deltaY > distance * 2`, where the deltas are the
absolute differences between the switched coordinates and the original. -/
def nudgeClampTriggers (direction : String) (distance : ℚ)
    (layer : TextLayerProperties) : Bool :=
  decide (|nudgeNewLeft direction distance layer - layer.left| > distance * 2) ||
  decide (|nudgeNewTop direction distance layer - layer.top| > distance * 2)

/-- `nudgeSelectedLayers` from `pages/index.tsx` (editor-store part): for
each selected id, look the layer up in the pre-call `textLayers` snapshot,
compute the nudged coordinates, re-derive them from scratch if the safeguard
clamp triggers, and apply an `updateTextLayer` with the new `left`/`top`. -/
def nudgeSelectedLayers (direction : String) (distance : ℚ) (s : CanvasState) : CanvasState :=
  s.selectedLayerIds.foldl (fun st layerId =>
    match s.textLayers.find? (fun l => l.id = layerId) with
    | none => st
    | some layer =>
        let newLeft := nudgeNewLeft direction distance layer
        let newTop := nudgeNewTop direction distance layer
        let adjusted : ℚ × ℚ :=
          if nudgeClampTriggers direction distance layer then
            (layer.left +
              (if direction = "ArrowLeft" then -distance
               else if direction = "ArrowRight" then distance else 0),
             layer.top +
              (if direction = "ArrowUp" then -distance
               else if direction = "ArrowDown" then distance else 0))
          else (newLeft, newTop)
        updateTextLayer layerId { left := some adjusted.1, top := some adjusted.2 } st) s

/-- The whole `nudgeSelectedLayers` handler: nudge the layers in the Document
Store, then `pushHistory('Nudged N layer(s)', useEditorStore.getState())` —
the snapshot pushed is the complete post-nudge editor state. -/
def nudgeSelectedLayersFull (direction : String) (distance : ℚ) (timestamp : Nat)
    (app : AppState) : AppState :=
  let newEditor := nudgeSelectedLayers direction distance app.editor
  { editor := newEditor
    history :=
      pushHistory ("Nudged " ++ toString app.editor.selectedLayerIds.length ++ " layer(s)")
        timestamp newEditor app.history }

/-- `applySmartSpacing` from `pages/index.tsx`: filter the selected layers,
sort them by `left` (JavaScript's stable sort with comparator
`a.left - b.left`), spread them evenly from the leftmost over
`max(100, currentSpread)`, updating each layer's `left` in the store. -/
def applySmartSpacing (s : CanvasState) : CanvasState :=
  if s.selectedLayerIds.length < 2 then s
  else
    let selectedLayers := s.textLayers.filter (fun layer => s.selectedLayerIds.contains layer.id)
    let sorted := List.insertionSort (fun a b => a.left ≤ b.left) selectedLayers
    if sorted.length < 2 then s
    else
      let leftmostPos := sorted.headI.left
      let rightmostPos := sorted.getLastI.left
      let currentSpread := rightmostPos - leftmostPos
      let minSpread := max 100 currentSpread
      let spacing := minSpread / ((sorted.length : ℚ) - 1)
      sorted.enum.foldl (fun st pair =>
        updateTextLayer pair.2.id { left := some (leftmostPos + spacing * (pair.1 : ℚ)) } st) s

/-- The fabric canvas as seen by the export path: `getWidth()`/`getHeight()`. -/
structure Canvas where
  width : ℚ
  height : ℚ
deriving DecidableEq, Inhabited

/-- The image produced by the drawing surface's serializer.

Modelled from the spec: the drawing surface's export-to-image API (fabric's
`canvas.toDataURL`, an external collaborator not in the repository) is
"parameterized by a resolution multiplier" applied uniformly to the exported
region, so the produced PNG's pixel dimensions are the region dimensions
scaled by the multiplier. -/
structure PngImage where
  format : String
  width : ℚ
  height : ℚ
deriving DecidableEq, Inhabited

/-- Modelled from the spec: `canvas.toDataURL({format, quality, multiplier,
left, top, width, height})` — produces a PNG of the `width × height` region
at `multiplier` times its resolution. -/
def toDataURL (_c : Canvas) (multiplier : ℚ) (_left _top width height : ℚ) : PngImage :=
  { format := "png", width := width * multiplier, height := height * multiplier }

/-- `exportToPng` from `utils/export.ts`: validate the canvas, the background
image and their dimensions, compute
`multiplier = max(imgWidth / canvasWidth, imgHeight / canvasHeight)`, and
export the `canvasWidth × canvasHeight` region at that multiplier.  The
promise rejection of the source is the `Except.error` branch. -/
def exportToPng (canvas : Option Canvas) (backgroundImage : Option BackgroundImage) :
    Except String PngImage :=
  match canvas with
  | none => .error "Canvas is required for export"
  | some c =>
    match backgroundImage with
    | none => .error "Background image with dimensions is required for export"
    | some bg =>
      let imgWidth := bg.dimensions.width
      let imgHeight := bg.dimensions.height
      let canvasWidth := c.width
      let canvasHeight := c.height
      if imgWidth ≤ 0 ∨ imgHeight ≤ 0 then
        .error "Invalid background image dimensions"
      else if canvasWidth ≤ 0 ∨ canvasHeight ≤ 0 then
        .error "Invalid canvas dimensions"
      else
        let multiplier := max (imgWidth / canvasWidth) (imgHeight / canvasHeight)
        if multiplier ≤ 0 then
          .error "Invalid export multiplier calculated"
        else
          .ok (toDataURL c multiplier 0 0 canvasWidth canvasHeight)

/-- The observable outcome of `handleExport` in `ExportButton.tsx`: either an
error toast, or a successful download of the generated PNG under the given
filename. -/
inductive ExportOutcome where
  | errorToast (title message : String)
  | success (filename : String) (image : PngImage)
deriving DecidableEq, Inhabited

/-- `handleExport` from `ExportButton.tsx`: precondition check
(`!canvas || !backgroundImage`) before any export is attempted; on success
`downloadPng(dataUrl, 'image-text-composition-' + Date.now() + '.png')`; on
rejection an error toast. -/
def handleExport (canvas : Option Canvas) (backgroundImage : Option BackgroundImage)
    (now : Nat) : ExportOutcome :=
  match canvas, backgroundImage with
  | some c, some bg =>
    match exportToPng (some c) (some bg) with
    | .ok image =>
        .success ("image-text-composition-" ++ toString now ++ ".png") image
    | .error msg =>
        .errorToast "Export failed" (msg ++ " Please try again or try with a smaller image.")
  | _, _ =>
    .errorToast "Cannot export"
      "Please upload a background image and add some text layers before exporting."

/-- The history-store operations reachable from the UI, for stating
invariants over arbitrary operation sequences.  A `push` carries the
description, timestamp and snapshot its caller would pass. -/
inductive HistoryOp where
  | push (description : String) (timestamp : Nat) (state : CanvasState)
  | undo
  | redo
  | clear
deriving DecidableEq, Inhabited

/-- Apply one history-store operation to the combined state. -/
def applyOp (op : HistoryOp) (app : AppState) : AppState :=
  match op with
  | .push d t s => { app with history := pushHistory d t s app.history }
  | .undo => undoApp app
  | .redo => redoApp app
  | .clear => { app with history := clearHistory }

/-- Run a sequence of history-store operations from a starting state. -/
def runOps (ops : List HistoryOp) (app : AppState) : AppState :=
  ops.foldl (fun a op => applyOp op a) app

/-- Push a list of history actions in order (each `pushHistory` call as its
caller would issue it). -/
def pushMany (acts : List HistoryAction) (app : AppState) : AppState :=
  acts.foldl (fun a act =>
    { a with history := pushHistory act.description act.timestamp act.state a.history }) app

/-- Iterate `undoApp` `n` times. -/
def undoIter (n : Nat) (app : AppState) : AppState := undoApp^[n] app

/-! ### Sample states for concrete scenarios -/

/-- A text layer with the defaults `addTextLayer` uses, at a given id and
horizontal position. -/
def sampleLayer (name : String) (leftPos : ℚ) : TextLayerProperties :=
  { id := name, text := "New Text", fontFamily := "Arial", fontSize := 24,
    fontWeight := "normal", color := "#000000", opacity := 1, textAlign := "left",
    top := 100, left := leftPos, width := 200, height := 50, angle := 0,
    scaleX := 1, scaleY := 1, lineHeight := some (6/5), charSpacing := some 0,
    shadow := none, locked := none }

/-- The smart-spacing scenario of the spec: three selected layers at left
positions 10, 50 and 200. -/
def spacingScenario : CanvasState :=
  { backgroundImage := none,
    textLayers := [sampleLayer "a" 10, sampleLayer "b" 50, sampleLayer "c" 200],
    selectedLayerIds := ["a", "b", "c"],
    canvasDimensions := { width := 800, height := 600 } }

/-- A document with one selected layer, used for the nudge/history scenarios. -/
def singleLayerEditor : CanvasState :=
  { backgroundImage := none,
    textLayers := [sampleLayer "layer-a" 100],
    selectedLayerIds := ["layer-a"],
    canvasDimensions := { width := 800, height := 600 } }

/-- A sample history action over the single-layer document. -/
def sampleAction (t : Nat) (d : String) : HistoryAction :=
  { timestamp := t, description := d, state := singleLayerEditor }

/-! ### Helper lemmas -/

/-- `updateTextLayer` only touches `textLayers`. -/
theorem updateTextLayer_selectedLayerIds (id : String) (p : LayerPatch) (s : CanvasState) :
    (updateTextLayer id p s).selectedLayerIds = s.selectedLayerIds := rfl

/-- `nudgeSelectedLayers` leaves the selection unchanged. -/
theorem nudgeSelectedLayers_selectedLayerIds (direction : String) (distance : ℚ)
    (s : CanvasState) :
    (nudgeSelectedLayers direction distance s).selectedLayerIds = s.selectedLayerIds := by
  unfold nudgeSelectedLayers
  have key : ∀ (ids : List String) (st : CanvasState),
      (List.foldl (fun st layerId =>
        match s.textLayers.find? (fun l => l.id = layerId) with
        | none => st
        | some layer =>
            let newLeft := nudgeNewLeft direction distance layer
            let newTop := nudgeNewTop direction distance layer
            let adjusted : ℚ × ℚ :=
              if nudgeClampTriggers direction distance layer then
                (layer.left +
                  (if direction = "ArrowLeft" then -distance
                   else if direction = "ArrowRight" then distance else 0),
                 layer.top +
                  (if direction = "ArrowUp" then -distance
                   else if direction = "ArrowDown" then distance else 0))
              else (newLeft, newTop)
            updateTextLayer layerId { left := some adjusted.1, top := some adjusted.2 } st)
        st ids).selectedLayerIds = st.selectedLayerIds := by
    intro ids
    induction ids with
    | nil => intro st; rfl
    | cons id rest ih =>
        intro st
        simp only [List.foldl_cons]
        cases h : s.textLayers.find? (fun l => l.id = id) with
        | none => simp only [h]; exact ih st
        | some layer => simp only [h]; exact ih _
  exact key s.selectedLayerIds s

/-- A `jsSliceFrom` with negative start keeps the list whole when it is
short enough. -/
theorem jsSliceFrom_of_length_le (start : Int) (l : List α) (hs : start < 0)
    (h : (l.length : Int) ≤ -start) : jsSliceFrom start l = l := by
  unfold jsSliceFrom
  rw [if_pos hs]
  have hz : ((l.length : Int) + start).toNat = 0 := by omega
  rw [hz, List.drop_zero]

/-- A `jsSliceFrom` with negative start keeps at most `-start` elements. -/
theorem jsSliceFrom_length_le (start : Int) (l : List α) (hs : start < 0) :
    ((jsSliceFrom start l).length : Int) ≤ -start := by
  unfold jsSliceFrom
  rw [if_pos hs]
  rw [List.length_drop]
  omega

/-- After pushing a list of actions onto the initial store (no eviction yet):
`past` holds all but the last pushed action, `present` the last, `future` is
empty, and the Document Store is untouched. -/
theorem pushMany_initial (acts : List HistoryAction)
    (h : acts.length ≤ MAX_HISTORY_SIZE - 1) :
    pushMany acts initialApp
      = { editor := editorInitialState,
          history := { past := acts.dropLast, present := acts.getLast?, future := [],
                       maxHistorySize := MAX_HISTORY_SIZE } } := by
  induction acts using List.reverseRecOn with
  | nil => rfl
  | append_singleton as b ih =>
      have hlen : as.length ≤ MAX_HISTORY_SIZE - 1 := by
        rw [List.length_append] at h
        omega
      unfold pushMany at ih ⊢
      rw [List.foldl_append, ih hlen]
      simp only [List.foldl_cons, List.foldl_nil]
      cases hlast : as.getLast? with
      | none =>
          have hnil : as = [] := List.getLast?_eq_none_iff.mp hlast
          subst hnil
          rfl
      | some p =>
          have hrestore : as.dropLast ++ [p] = as :=
            List.dropLast_append_getLast? p (by rw [Option.mem_def, hlast])
          simp only [pushHistory, jsonDeepClone, hlast]
          rw [hrestore, jsSliceFrom_of_length_le _ _ (by norm_num [MAX_HISTORY_SIZE])
            (by push_cast [MAX_HISTORY_SIZE] at hlen ⊢; omega)]
          simp [List.dropLast_concat, List.getLast?_concat]

/-- Draining the past with `undo`: from a store with `past = p`, non-null
present `b` and future `f`, `p.length` undos reach an empty past; if `p` is
non-empty the present becomes `p`'s first (oldest) entry, whose snapshot is
imported into the Document Store, and everything newer sits in `future`. -/
theorem undoIter_depletes (p : List HistoryAction) (b : HistoryAction)
    (f : List HistoryAction) (ed : CanvasState) (M : Nat) :
    undoIter p.length
        { editor := ed,
          history := { past := p, present := some b, future := f, maxHistorySize := M } }
      = match p with
        | [] =>
            { editor := ed,
              history := { past := [], present := some b, future := f, maxHistorySize := M } }
        | a :: rest =>
            { editor := a.state,
              history := { past := [], present := some a, future := rest ++ b :: f,
                           maxHistorySize := M } } := by
  induction p using List.reverseRecOn generalizing b f ed with
  | nil => rfl
  | append_singleton q c ih =>
      have hstep : undoApp
          { editor := ed,
            history := { past := q ++ [c], present := some b, future := f,
                         maxHistorySize := M } }
          = { editor := c.state,
              history := { past := q, present := some c, future := b :: f,
                           maxHistorySize := M } } := by
        simp [undoApp, importState]
      have hiter : undoIter (q ++ [c]).length
          { editor := ed,
            history := { past := q ++ [c], present := some b, future := f,
                         maxHistorySize := M } }
          = undoIter q.length
              { editor := c.state,
                history := { past := q, present := some c, future := b :: f,
                             maxHistorySize := M } } := by
        unfold undoIter
        rw [List.length_append, List.length_singleton, Function.iterate_succ_apply, hstep]
      rw [hiter, ih]
      cases q with
      | nil => rfl
      | cons a q' => simp

/-! ### Claim theorems -/

/-- C1 counterexample: N = 1 < maxHistorySize, yet after a single
`pushHistory` on the initial store `canUndo()` is `false` (the first push
finds a null present, so nothing enters `past`), contradicting the claim
that `canUndo()` is true after any N < maxHistorySize pushes. -/
theorem canUndo_false_after_one_push :
    canUndo (pushHistory "Added text layer" 0 singleLayerEditor historyInitialState) = false
      ∧ (1 : Nat) < MAX_HISTORY_SIZE := by
  exact ⟨rfl, by norm_num [MAX_HISTORY_SIZE]⟩

/-- C1 amended: starting from the initial empty history store, after any
sequence of N `pushHistory` calls with 1 ≤ N < maxHistorySize, `canUndo()`
is true iff N ≥ 2, and exactly N − 1 `undo()` calls empty the past, leaving
the FIRST pushed action as present (the initial null present is never
reachable by undo); at that point `canUndo()` is false and a further
`undo()` is a no-op. -/
theorem undo_drains_to_first_push (acts : List HistoryAction) (hne : acts ≠ [])
    (hlt : acts.length < MAX_HISTORY_SIZE) :
    canUndo (pushMany acts initialApp).history = decide (2 ≤ acts.length) ∧
    (undoIter (acts.length - 1) (pushMany acts initialApp)).history.past = [] ∧
    (undoIter (acts.length - 1) (pushMany acts initialApp)).history.present = acts.head? ∧
    canUndo (undoIter (acts.length - 1) (pushMany acts initialApp)).history = false ∧
    undoApp (undoIter (acts.length - 1) (pushMany acts initialApp))
      = undoIter (acts.length - 1) (pushMany acts initialApp) := by
  have hpush := pushMany_initial acts (by omega)
  match acts, hne with
  | a :: rest, _ =>
    have hlast : (a :: rest).getLast? = some ((a :: rest).getLast (by simp)) :=
      List.getLast?_eq_getLast _ _
    rw [hpush]
    have hdrop : (a :: rest).length - 1 = ((a :: rest).dropLast).length := by
      simp
    rw [hlast, hdrop, undoIter_depletes]
    refine ⟨?_, ?_⟩
    · simp only [canUndo]
      rw [decide_eq_decide]
      simp
      omega
    · cases hr : rest with
      | nil =>
          subst hr
          refine ⟨rfl, ?_, rfl, by simp [undoApp]⟩
          simp [List.getLast]
      | cons b rest' =>
          have hcons : (a :: b :: rest').dropLast = a :: (b :: rest').dropLast := rfl
          rw [hcons]
          refine ⟨rfl, rfl, rfl, by simp [undoApp]⟩

/-- Three sample pushes for the C1 witness. -/
def acts3 : List HistoryAction :=
  [sampleAction 0 "one", sampleAction 1 "two", sampleAction 2 "three"]

/-- Witness for C1's amended theorem at a concrete 3-push sequence. -/
theorem undo_drains_to_first_push_witness :
    canUndo (pushMany acts3 initialApp).history = decide (2 ≤ acts3.length) ∧
    (undoIter (acts3.length - 1) (pushMany acts3 initialApp)).history.past = [] ∧
    (undoIter (acts3.length - 1) (pushMany acts3 initialApp)).history.present = acts3.head? ∧
    canUndo (undoIter (acts3.length - 1) (pushMany acts3 initialApp)).history = false ∧
    undoApp (undoIter (acts3.length - 1) (pushMany acts3 initialApp))
      = undoIter (acts3.length - 1) (pushMany acts3 initialApp) :=
  undo_drains_to_first_push acts3 (by simp [acts3])
    (by norm_num [acts3, MAX_HISTORY_SIZE])

/-- The inductive invariant of the History Store: `past` and `future`
together never exceed `maxHistorySize − 1` entries, and the configured
maximum stays 20. -/
def histInv (h : HistoryState) : Prop :=
  h.past.length + h.future.length ≤ h.maxHistorySize - 1 ∧
  h.maxHistorySize = MAX_HISTORY_SIZE

/-- Every history-store operation preserves the invariant. -/
theorem applyOp_preserves_histInv (op : HistoryOp) (app : AppState)
    (hI : histInv app.history) : histInv (applyOp op app).history := by
  obtain ⟨ed, past, present, future, M⟩ := app
  obtain ⟨hlen, hmax⟩ := hI
  simp only at hlen hmax
  subst hmax
  cases op with
  | push d t s =>
      refine ⟨?_, rfl⟩
      simp only [applyOp, pushHistory]
      cases present with
      | none =>
          simp only [List.length_nil]
          omega
      | some p =>
          have hsl := jsSliceFrom_length_le (-(MAX_HISTORY_SIZE : Int) + 1)
            (past ++ [p]) (by norm_num [MAX_HISTORY_SIZE])
          simp only [MAX_HISTORY_SIZE] at hsl ⊢
          simp only [List.length_nil]
          omega
  | undo =>
      simp only [applyOp, undoApp]
      cases hg : past.getLast? with
      | none => exact ⟨hlen, rfl⟩
      | some previous =>
          cases present with
          | none => exact ⟨hlen, rfl⟩
          | some p =>
              refine ⟨?_, rfl⟩
              have hpos : 0 < past.length := by
                cases hpast : past with
                | nil => rw [hpast] at hg; exact Option.noConfusion hg
                | cons x xs => simp
              simp only [List.length_dropLast, List.length_cons]
              omega
  | redo =>
      simp only [applyOp, redoApp]
      cases future with
      | nil => exact ⟨hlen, rfl⟩
      | cons next newFuture =>
          simp only [List.length_cons] at hlen
          cases present with
          | none =>
              refine ⟨?_, rfl⟩
              simp only []
              omega
          | some p =>
              refine ⟨?_, rfl⟩
              simp only [List.length_append, List.length_cons, List.length_nil]
              omega
  | clear =>
      refine ⟨?_, rfl⟩
      simp [applyOp, clearHistory, historyInitialState]

/-- The invariant holds along every operation sequence from a state
satisfying it. -/
theorem runOps_preserves_histInv (ops : List HistoryOp) (app : AppState)
    (hI : histInv app.history) : histInv (runOps ops app).history := by
  induction ops generalizing app with
  | nil => exact hI
  | cons op rest ih =>
      exact ih (applyOp op app) (applyOp_preserves_histInv op app hI)

/-- C3: along every sequence of `pushHistory`/`undo`/`redo`/`clearHistory`
operations from the initial store — in particular after `maxHistorySize + k`
pushes for any k ≥ 0 — `past.length + 1 ≤ maxHistorySize` holds; and when a
push overflows (past already at `maxHistorySize − 1` with a present), the
oldest past entry is dropped: the new past is `past.tail ++ [present]`. -/
theorem history_bounded (ops : List HistoryOp) :
    (runOps ops initialApp).history.past.length + 1
        ≤ (runOps ops initialApp).history.maxHistorySize ∧
    ∀ (h : HistoryState) (p : HistoryAction) (d : String) (t : Nat) (s : CanvasState),
      h.present = some p → h.maxHistorySize = MAX_HISTORY_SIZE →
      h.past.length = MAX_HISTORY_SIZE - 1 →
      (pushHistory d t s h).past = h.past.tail ++ [p] := by
  constructor
  · have hI := runOps_preserves_histInv ops initialApp ⟨by decide, rfl⟩
    obtain ⟨hlen, hmax⟩ := hI
    rw [hmax] at hlen ⊢
    simp only [MAX_HISTORY_SIZE] at hlen ⊢
    omega
  · intro h p d t s hp hmax hfull
    simp only [pushHistory, hp]
    unfold jsSliceFrom
    rw [if_pos (by rw [hmax]; norm_num [MAX_HISTORY_SIZE])]
    have harg : (h.past ++ [p]).length = MAX_HISTORY_SIZE := by
      simp only [List.length_append, List.length_singleton, hfull, MAX_HISTORY_SIZE]
    have hidx : (((h.past ++ [p]).length : Int) + (-(h.maxHistorySize : Int) + 1)).toNat = 1 := by
      rw [harg, hmax]
      simp [MAX_HISTORY_SIZE]
    rw [hidx, List.drop_append_of_le_length (by rw [hfull]; norm_num [MAX_HISTORY_SIZE]),
      List.drop_one]

/-- A full history (19 past entries and a present) for the C3 witness. -/
def fullHistory : HistoryState :=
  { past := List.replicate 19 (sampleAction 0 "old"),
    present := some (sampleAction 1 "current"),
    future := [],
    maxHistorySize := MAX_HISTORY_SIZE }

/-- Witness for C3: the bound after an empty sequence, and the drop-oldest
behavior of an overflowing push on a concrete full store. -/
theorem history_bounded_witness :
    (runOps [] initialApp).history.past.length + 1
        ≤ (runOps [] initialApp).history.maxHistorySize ∧
    (pushHistory "new" 2 singleLayerEditor fullHistory).past
      = fullHistory.past.tail ++ [sampleAction 1 "current"] :=
  ⟨(history_bounded []).1,
   (history_bounded []).2 fullHistory (sampleAction 1 "current") "new" 2 singleLayerEditor
     rfl rfl (by simp [fullHistory, MAX_HISTORY_SIZE])⟩

/-- C4: for every history-store state — in particular any state reached
after one or more `undo()` calls — a `pushHistory` call leaves the `future`
sequence empty, so no redo is available after a fresh edit diverges from
history. -/
theorem pushHistory_clears_future (description : String) (timestamp : Nat)
    (state : CanvasState) (h : HistoryState) :
    (pushHistory description timestamp state h).future = [] := rfl

/-- C5: `undo()` with an empty past or a null present, and `redo()` with an
empty future, are silent no-ops: both the History Store and the Document
Store are unchanged.  (No exception can be thrown: `undoApp`, `redoApp`,
`pushHistory`, `canUndo`, `canRedo` and `clearHistory` are total functions
on all of `AppState`/`HistoryState`, mirroring the throw-free source.) -/
theorem undo_redo_boundary_noop (app : AppState) :
    (app.history.past = [] ∨ app.history.present = none → undoApp app = app) ∧
    (app.history.future = [] → redoApp app = app) := by
  constructor
  · rintro (h | h)
    · cases hp : app.history.present <;>
        simp [undoApp, h, hp]
    · cases hg : app.history.past.getLast? <;>
        simp [undoApp, h, hg]
  · intro h
    simp [redoApp, h]

/-- Witness for C5 at the initial store. -/
theorem undo_redo_boundary_noop_witness :
    undoApp initialApp = initialApp ∧ redoApp initialApp = initialApp :=
  ⟨(undo_redo_boundary_noop initialApp).1 (Or.inl rfl),
   (undo_redo_boundary_noop initialApp).2 rfl⟩

/-- C9: with exactly 3 selected layers at left positions 10, 50 and 200,
smart spacing produces left positions `[10, 10 + 95, 10 + 95·2]` — an
arithmetic progression starting at the unmoved leftmost layer, whose total
span `95·2` is `max 100 (200 − 10)`, the larger of 100px and the current
spread, divided evenly across the 3 layers. -/
theorem applySmartSpacing_scenario :
    ((applySmartSpacing spacingScenario).textLayers.map (fun l => l.left))
        = [10, 10 + 95, 10 + 95 * 2] ∧
    (95 * 2 : ℚ) = max 100 (200 - 10) := by
  constructor
  · simp [applySmartSpacing, spacingScenario, sampleLayer, List.insertionSort,
      List.orderedInsert, updateTextLayer, applyLayerPatch, List.enum, List.enumFrom,
      List.filter, List.foldl, List.headI, List.getLastI, List.map]
    norm_num
  · norm_num

/-- C2 counterexample: with layer "layer-a" selected, the nudge handler's
`pushHistory(…, useEditorStore.getState())` stores a present snapshot whose
`selectedLayerIds` is `["layer-a"]`, which is not empty — the current
selection is part of the stored history snapshot. -/
theorem stored_snapshot_contains_selection :
    ((nudgeSelectedLayersFull "ArrowRight" 1 5
        { editor := singleLayerEditor, history := historyInitialState }).history.present.map
      (fun a => a.state.selectedLayerIds)) = some ["layer-a"] ∧
    (["layer-a"] : List String) ≠ [] := by
  exact ⟨rfl, by simp⟩

/-- C2 amended: every snapshot stored by `pushHistory` is the complete
`CanvasState` its caller passes — background image, ordered text layers,
canvas dimensions AND `selectedLayerIds`.  In particular the nudge handler
passes the full post-nudge editor state, so the stored snapshot's
`selectedLayerIds` equals the live selection (which nudging leaves
unchanged); selection is not excluded from snapshots. -/
theorem pushHistory_stores_entire_state (description : String) (timestamp : Nat)
    (state : CanvasState) (h : HistoryState) (direction : String) (distance : ℚ)
    (t : Nat) (app : AppState) :
    (pushHistory description timestamp state h).present
        = some { timestamp := timestamp, description := description, state := state } ∧
    ((nudgeSelectedLayersFull direction distance t app).history.present.map
        (fun a => a.state.selectedLayerIds)) = some app.editor.selectedLayerIds := by
  refine ⟨rfl, ?_⟩
  simp [nudgeSelectedLayersFull, pushHistory, jsonDeepClone,
    nudgeSelectedLayers_selectedLayerIds]

/-- C6 counterexample: when the Document Store has drifted from the history
`present`'s snapshot, `undo()` immediately followed by `redo()` restores the
history exactly but leaves the Document Store holding `present`'s snapshot,
not the state it held before the undo. -/
theorem undo_redo_document_not_restored :
    (redoApp (undoApp
        { editor := editorInitialState,
          history := { past := [sampleAction 0 "add"], present := some (sampleAction 1 "move"),
                       future := [], maxHistorySize := 20 } })).editor
      ≠ editorInitialState ∧
    (redoApp (undoApp
        { editor := editorInitialState,
          history := { past := [sampleAction 0 "add"], present := some (sampleAction 1 "move"),
                       future := [], maxHistorySize := 20 } })).history
      = { past := [sampleAction 0 "add"], present := some (sampleAction 1 "move"),
          future := [], maxHistorySize := 20 } := by
  constructor
  · simp [undoApp, redoApp, importState, sampleAction, singleLayerEditor, editorInitialState]
  · simp [undoApp, redoApp, importState]

/-- C6 amended: for every history state with non-empty past and non-null
present, `undo()` then `redo()` restores `past`, `present` and `future` to
exactly their pre-undo values, and leaves the Document Store holding
`present`'s snapshot — which is the pre-undo document state exactly when the
document was synchronized with `present` before the undo. -/
theorem undo_then_redo_roundtrip (ed : CanvasState) (q : List HistoryAction)
    (a b : HistoryAction) (f : List HistoryAction) (M : Nat) :
    redoApp (undoApp
        { editor := ed,
          history := { past := q ++ [a], present := some b, future := f, maxHistorySize := M } })
      = { editor := b.state,
          history := { past := q ++ [a], present := some b, future := f, maxHistorySize := M } } ∧
    (ed = b.state →
      redoApp (undoApp
          { editor := ed,
            history := { past := q ++ [a], present := some b, future := f,
                         maxHistorySize := M } })
        = { editor := ed,
            history := { past := q ++ [a], present := some b, future := f,
                         maxHistorySize := M } }) := by
  have h1 : redoApp (undoApp
      { editor := ed,
        history := { past := q ++ [a], present := some b, future := f, maxHistorySize := M } })
      = { editor := b.state,
          history := { past := q ++ [a], present := some b, future := f,
                       maxHistorySize := M } } := by
    simp [undoApp, redoApp, importState]
  exact ⟨h1, fun hsync => by rw [h1, hsync]⟩

/-- Witness for C6's amended theorem, at a synchronized concrete state. -/
theorem undo_then_redo_roundtrip_witness :
    redoApp (undoApp
        { editor := singleLayerEditor,
          history := { past := [] ++ [sampleAction 0 "add"],
                       present := some (sampleAction 1 "move"),
                       future := [], maxHistorySize := 20 } })
      = { editor := singleLayerEditor,
          history := { past := [] ++ [sampleAction 0 "add"],
                       present := some (sampleAction 1 "move"),
                       future := [], maxHistorySize := 20 } } :=
  (undo_then_redo_roundtrip singleLayerEditor [] (sampleAction 0 "add")
    (sampleAction 1 "move") [] 20).2 rfl

/-- A sample background image: a 400×300 upload. -/
def sampleBackground : BackgroundImage :=
  { url := "bg.png", file := none, dimensions := { width := 400, height := 300, aspectRatio := 4/3 } }

/-- C8: with a missing canvas or a missing background image, `handleExport`
reports the precondition failure as an error toast before attempting any
export, never reaches the success/download branch, and `exportToPng` itself
also rejects with an error. -/
theorem handleExport_missing_inputs (canvas : Option Canvas) (bg : Option BackgroundImage)
    (now : Nat) (h : canvas = none ∨ bg = none) :
    handleExport canvas bg now = .errorToast "Cannot export"
      "Please upload a background image and add some text layers before exporting." ∧
    (∀ filename image, handleExport canvas bg now ≠ .success filename image) ∧
    ∃ msg, exportToPng canvas bg = .error msg := by
  rcases h with h | h
  · subst h
    refine ⟨by cases bg <;> rfl, ?_, "Canvas is required for export", rfl⟩
    intro filename image
    cases bg <;> simp [handleExport]
  · subst h
    cases canvas with
    | none =>
        exact ⟨rfl, by intro filename image; simp [handleExport],
          "Canvas is required for export", rfl⟩
    | some c =>
        exact ⟨rfl, by intro filename image; simp [handleExport],
          "Background image with dimensions is required for export", rfl⟩

/-- Witness for C8 with a missing canvas. -/
theorem handleExport_missing_inputs_witness :
    handleExport none (some sampleBackground) 0 = .errorToast "Cannot export"
      "Please upload a background image and add some text layers before exporting." :=
  (handleExport_missing_inputs none (some sampleBackground) 0 (Or.inl rfl)).1

/-- C7 counterexample: exporting a 400×300 background image from a 200×100
canvas (positive dimensions, non-null canvas) succeeds with a 600×300 PNG —
`canvasWidth·multiplier × canvasHeight·multiplier` — which does not match
the image's 400×300 native resolution. -/
theorem exportToPng_not_native_resolution :
    exportToPng (some { width := 200, height := 100 }) (some sampleBackground)
        = .ok { format := "png", width := 600, height := 300 } ∧
    ¬((600 : ℚ) = sampleBackground.dimensions.width ∧
      (300 : ℚ) = sampleBackground.dimensions.height) := by
  constructor
  · norm_num [exportToPng, toDataURL, sampleBackground]
  · norm_num [sampleBackground]

/-- C7 amended: for every export with a non-null canvas and a background
image with positive dimensions, `exportToPng` computes the multiplier as
`max(imageWidth/canvasWidth, imageHeight/canvasHeight)` and applies it
uniformly to the `canvasWidth × canvasHeight` region, producing a PNG of
`canvasWidth·m × canvasHeight·m` pixels; these equal the background image's
native resolution exactly when the canvas has the image's aspect ratio.
The download filename is `image-text-composition-<timestamp>.png`. -/
theorem exportToPng_multiplier_and_filename (c : Canvas) (bg : BackgroundImage) (now : Nat)
    (hiw : 0 < bg.dimensions.width) (hih : 0 < bg.dimensions.height)
    (hcw : 0 < c.width) (hch : 0 < c.height) :
    exportToPng (some c) (some bg)
        = .ok { format := "png",
                width := c.width *
                  max (bg.dimensions.width / c.width) (bg.dimensions.height / c.height),
                height := c.height *
                  max (bg.dimensions.width / c.width) (bg.dimensions.height / c.height) } ∧
    handleExport (some c) (some bg) now
        = .success ("image-text-composition-" ++ toString now ++ ".png")
            { format := "png",
              width := c.width *
                max (bg.dimensions.width / c.width) (bg.dimensions.height / c.height),
              height := c.height *
                max (bg.dimensions.width / c.width) (bg.dimensions.height / c.height) } ∧
    (bg.dimensions.width * c.height = bg.dimensions.height * c.width →
      c.width * max (bg.dimensions.width / c.width) (bg.dimensions.height / c.height)
          = bg.dimensions.width ∧
      c.height * max (bg.dimensions.width / c.width) (bg.dimensions.height / c.height)
          = bg.dimensions.height) := by
  have hmulpos : 0 < max (bg.dimensions.width / c.width) (bg.dimensions.height / c.height) :=
    lt_of_lt_of_le (div_pos hiw hcw) (le_max_left _ _)
  have hok : exportToPng (some c) (some bg)
      = .ok { format := "png",
              width := c.width *
                max (bg.dimensions.width / c.width) (bg.dimensions.height / c.height),
              height := c.height *
                max (bg.dimensions.width / c.width) (bg.dimensions.height / c.height) } := by
    have g1 : ¬(bg.dimensions.width ≤ 0 ∨ bg.dimensions.height ≤ 0) := by
      push_neg
      exact ⟨hiw, hih⟩
    have g2 : ¬(c.width ≤ 0 ∨ c.height ≤ 0) := by
      push_neg
      exact ⟨hcw, hch⟩
    simp only [exportToPng, toDataURL]
    rw [if_neg g1, if_neg g2, if_neg (not_le_of_lt hmulpos)]
  refine ⟨hok, ?_, ?_⟩
  · simp [handleExport, hok]
  · intro haspect
    have hdiv : bg.dimensions.width / c.width = bg.dimensions.height / c.height := by
      rw [div_eq_div_iff (ne_of_gt hcw) (ne_of_gt hch)]
      exact haspect
    constructor
    · rw [hdiv, max_self]
      field_simp
      linear_combination -haspect
    · rw [hdiv, max_self]
      field_simp

/-- The movement the nudge claim describes: the layer's `left`/`top` shifted
by the switch on the arrow direction, all other fields unchanged. -/
def nudgedLayer (direction : String) (distance : ℚ) (l : TextLayerProperties) :
    TextLayerProperties :=
  { l with left := nudgeNewLeft direction distance l, top := nudgeNewTop direction distance l }

/-- For a nonnegative nudge distance the safeguard clamp condition never
holds: each coordinate moves by `distance` or `0`, and neither exceeds
`distance * 2`. -/
theorem nudgeClampTriggers_eq_false (direction : String) (distance : ℚ)
    (layer : TextLayerProperties) (hd : 0 ≤ distance) :
    nudgeClampTriggers direction distance layer = false := by
  unfold nudgeClampTriggers nudgeNewLeft nudgeNewTop
  simp only [Bool.or_eq_false_iff, decide_eq_false_iff_not, not_lt]
  split_ifs <;>
    refine ⟨?_, ?_⟩ <;>
      first
        | (rw [sub_sub_cancel_left, abs_neg, abs_of_nonneg hd]; linarith)
        | (rw [add_sub_cancel_left, abs_of_nonneg hd]; linarith)
        | (rw [sub_self, abs_zero]; linarith)

/-- The per-layer effect of one `nudgeSelectedLayers` fold step, after the
clamp is known not to trigger (proof helper): a layer whose id matches a
successfully looked-up selected id receives that looked-up layer's nudged
coordinates. -/
def nudgeStepFun (direction : String) (distance : ℚ) (s : CanvasState) (layerId : String)
    (l : TextLayerProperties) : TextLayerProperties :=
  match s.textLayers.find? (fun x => x.id = layerId) with
  | none => l
  | some layer =>
      if l.id = layerId then
        applyLayerPatch
          { left := some (nudgeNewLeft direction distance layer),
            top := some (nudgeNewTop direction distance layer) } l
      else l

/-- C10: for every invocation of `nudgeSelectedLayers` with a nonnegative
distance (every call site passes 1 or 10) on a document with unique layer
ids, (a) the safeguard clamp branch is unreachable — its condition is false
for every direction and layer — and (b) each selected layer present in the
layer list moves by exactly the nudged offset of the direction switch
(`±distance` on one coordinate, the other unchanged), while unselected
layers are untouched. -/
theorem nudge_moves_exactly_and_clamp_unreachable (direction : String) (distance : ℚ)
    (s : CanvasState) (hd : 0 ≤ distance)
    (hnodup : (s.textLayers.map (fun l => l.id)).Nodup) :
    (∀ layer, nudgeClampTriggers direction distance layer = false) ∧
    (nudgeSelectedLayers direction distance s).textLayers
      = s.textLayers.map (fun l =>
          if s.selectedLayerIds.contains l.id then nudgedLayer direction distance l
          else l) := by
  refine ⟨fun layer => nudgeClampTriggers_eq_false direction distance layer hd, ?_⟩
  have key : ∀ (ids : List String) (st : CanvasState),
      (List.foldl (fun st layerId =>
        match s.textLayers.find? (fun l => l.id = layerId) with
        | none => st
        | some layer =>
            let newLeft := nudgeNewLeft direction distance layer
            let newTop := nudgeNewTop direction distance layer
            let adjusted : ℚ × ℚ :=
              if nudgeClampTriggers direction distance layer then
                (layer.left +
                  (if direction = "ArrowLeft" then -distance
                   else if direction = "ArrowRight" then distance else 0),
                 layer.top +
                  (if direction = "ArrowUp" then -distance
                   else if direction = "ArrowDown" then distance else 0))
              else (newLeft, newTop)
            updateTextLayer layerId { left := some adjusted.1, top := some adjusted.2 } st)
        st ids).textLayers
      = st.textLayers.map (fun l =>
          ids.foldl (fun v i => nudgeStepFun direction distance s i v) l) := by
    intro ids
    induction ids with
    | nil =>
        intro st
        simp
    | cons i rest ih =>
        intro st
        simp only [List.foldl_cons]
        cases hfind : s.textLayers.find? (fun l => l.id = i) with
        | none =>
            simp only [hfind]
            rw [ih]
            simp only [nudgeStepFun, hfind]
        | some layer =>
            simp only [hfind]
            simp only [nudgeClampTriggers_eq_false direction distance layer hd,
              Bool.false_eq_true, if_false]
            rw [ih]
            simp only [updateTextLayer, List.map_map]
            apply List.map_congr_left
            intro l hl
            simp only [Function.comp, nudgeStepFun, hfind]
  unfold nudgeSelectedLayers
  rw [key s.selectedLayerIds s]
  have point : ∀ (ids : List String), ∀ l ∈ s.textLayers,
      (ids.foldl (fun v i => nudgeStepFun direction distance s i v) l
        = if ids.contains l.id then nudgedLayer direction distance l else l) ∧
      ids.foldl (fun v i => nudgeStepFun direction distance s i v)
          (nudgedLayer direction distance l)
        = nudgedLayer direction distance l := by
    intro ids
    induction ids with
    | nil =>
        intro l hl
        exact ⟨by simp, rfl⟩
    | cons i rest ih =>
        intro l hl
        obtain ⟨ih1, ih2⟩ := ih l hl
        by_cases hid : l.id = i
        · have hex : ∃ layer, s.textLayers.find? (fun x => x.id = i) = some layer := by
            cases hf : s.textLayers.find? (fun x => x.id = i) with
            | some layer => exact ⟨layer, rfl⟩
            | none =>
                exfalso
                have := List.find?_eq_none.mp hf l hl
                simp [hid] at this
          obtain ⟨layer, hf⟩ := hex
          have hlayerid : layer.id = i := by
            have := List.find?_some hf
            simpa using this
          have hlayermem := List.mem_of_find?_eq_some hf
          have hll : layer = l :=
            List.inj_on_of_nodup_map hnodup hlayermem hl (by rw [hlayerid, hid])
          subst hll
          have hstep1 : nudgeStepFun direction distance s i layer
              = nudgedLayer direction distance layer := by
            simp [nudgeStepFun, hf, hid, applyLayerPatch, nudgedLayer]
          have hstep2 : nudgeStepFun direction distance s i
              (nudgedLayer direction distance layer)
              = nudgedLayer direction distance layer := by
            simp [nudgeStepFun, hf, hid, applyLayerPatch, nudgedLayer]
          constructor
          · rw [List.foldl_cons, hstep1, ih2]
            simp [List.contains_cons, hid]
          · rw [List.foldl_cons, hstep2, ih2]
        · have hstep1 : nudgeStepFun direction distance s i l = l := by
            cases hf : s.textLayers.find? (fun x => x.id = i) with
            | none => simp [nudgeStepFun, hf]
            | some layer => simp [nudgeStepFun, hf, hid]
          have hstep2 : nudgeStepFun direction distance s i
              (nudgedLayer direction distance l)
              = nudgedLayer direction distance l := by
            cases hf : s.textLayers.find? (fun x => x.id = i) with
            | none => simp [nudgeStepFun, hf]
            | some layer => simp [nudgeStepFun, hf, nudgedLayer, hid]
          constructor
          · rw [List.foldl_cons, hstep1, ih1]
            simp [List.contains_cons, hid]
          · rw [List.foldl_cons, hstep2, ih2]
  apply List.map_congr_left
  intro l hl
  exact (point s.selectedLayerIds l hl).1

/-- Witness for C10: nudging the three-layer scenario right by 1. -/
theorem nudge_moves_exactly_witness :
    nudgeClampTriggers "ArrowRight" 1 (sampleLayer "a" 10) = false ∧
    (nudgeSelectedLayers "ArrowRight" 1 spacingScenario).textLayers
      = spacingScenario.textLayers.map (fun l =>
          if spacingScenario.selectedLayerIds.contains l.id then
            nudgedLayer "ArrowRight" 1 l
          else l) := by
  have h := nudge_moves_exactly_and_clamp_unreachable "ArrowRight" 1 spacingScenario
    (by norm_num) (by simp [spacingScenario, sampleLayer])
  exact ⟨h.1 (sampleLayer "a" 10), h.2⟩

/-- Witness for C7's amended theorem: a 400×300 canvas showing the 400×300
background gives multiplier 1 and a 400×300 PNG. -/
theorem exportToPng_multiplier_and_filename_witness :
    exportToPng (some { width := 400, height := 300 }) (some sampleBackground)
        = .ok { format := "png", width := 400, height := 300 } ∧
    handleExport (some { width := 400, height := 300 }) (some sampleBackground) 99
        = .success ("image-text-composition-" ++ toString 99 ++ ".png")
            { format := "png", width := 400, height := 300 } := by
  have h := exportToPng_multiplier_and_filename { width := 400, height := 300 }
    sampleBackground 99 (by norm_num [sampleBackground]) (by norm_num [sampleBackground])
    (by norm_num) (by norm_num)
  obtain ⟨h1, h2, -⟩ := h
  norm_num [sampleBackground] at h1 h2
  exact ⟨h1, h2⟩

end ImageTextComposer
